import Mathlib

/-!
Verification of the ProtoV2d tunnel implementation against its
natural-language specification.  The definitions below are shallow
embeddings of the TypeScript sources: the session and reliability layer
in session.ts, the v2 handshake engine in server.ts and client.ts, the
transport adapter in connection.ts and the helpers in utils.ts.  Byte
strings are modelled as lists of naturals below 256 and JavaScript
number operators are modelled with explicit 32-bit wrapping.
-/

namespace ProtoV2d

/-! ## JavaScript 32-bit integer semantics

JavaScript bitwise operators convert their operands with ToInt32 or
ToUint32 and operate on the 32-bit pattern.  We model the patterns as
naturals below 2^32 and the signed readings as integers. -/

/-- JS ToUint32: the 32-bit pattern of an integer, as a natural below 2^32. -/
def toUInt32 (n : Int) : Nat := (n % (2 ^ 32)).toNat

/-- JS ToInt32: wrap an integer into the signed 32-bit range. -/
def toInt32 (n : Int) : Int :=
  if n % (2 ^ 32) < 2 ^ 31 then n % (2 ^ 32) else n % (2 ^ 32) - 2 ^ 32

/-- JS left shift, operand converted with ToInt32 and result read as Int32. -/
def jsShl (a : Int) (b : Nat) : Int := toInt32 (toInt32 a * 2 ^ b)

/-- JS bitwise or on the 32-bit patterns, read back as Int32. -/
def jsOr (a b : Int) : Int := toInt32 ((toUInt32 a ||| toUInt32 b : Nat) : Int)

/-- JS arithmetic right shift: floor division of the Int32 reading. -/
def jsShr (a : Int) (b : Nat) : Int := Int.fdiv (toInt32 a) (2 ^ b)

/-- JS bitwise and on the 32-bit patterns, read back as Int32. -/
def jsAnd (a b : Int) : Int := toInt32 ((toUInt32 a &&& toUInt32 b : Nat) : Int)

theorem toUInt32_lt (n : Int) : toUInt32 n < 2 ^ 32 := by
  unfold toUInt32
  have h1 : 0 ≤ n % (2 ^ 32) := Int.emod_nonneg n (by norm_num)
  have h2 : n % (2 ^ 32) < 2 ^ 32 := Int.emod_lt_of_pos n (by norm_num)
  omega

theorem toUInt32_toInt32 (n : Int) : toUInt32 (toInt32 n) = toUInt32 n := by
  unfold toUInt32 toInt32
  have h0 : 0 ≤ n % (2 ^ 32) := Int.emod_nonneg n (by norm_num)
  have h1 : n % (2 ^ 32) < 2 ^ 32 := Int.emod_lt_of_pos n (by norm_num)
  have h3 : n % (2 ^ 32) % (2 ^ 32) = n % (2 ^ 32) := Int.emod_emod_of_dvd n dvd_rfl
  by_cases h : n % (2 ^ 32) < 2 ^ 31
  · simp only [h, if_true]
    omega
  · simp only [h, if_false]
    rw [Int.sub_emod, Int.emod_self, Int.sub_zero]
    omega

theorem toUInt32_natCast_lt {l : Nat} (h : l < 2 ^ 32) : toUInt32 (l : Int) = l := by
  unfold toUInt32
  have h0 : (0 : Int) ≤ (l : Int) := by exact_mod_cast Nat.zero_le l
  have h1 : ((l : Int)) < 2 ^ 32 := by exact_mod_cast h
  rw [Int.emod_eq_of_lt h0 h1]
  exact Int.toNat_natCast l

theorem toUInt32_jsOr (a b : Int) :
    toUInt32 (jsOr a b) = toUInt32 a ||| toUInt32 b := by
  unfold jsOr
  rw [toUInt32_toInt32]
  exact toUInt32_natCast_lt (Nat.or_lt_two_pow (toUInt32_lt a) (toUInt32_lt b))

theorem toInt32_natCast_small {c : Nat} (h : c < 2 ^ 31) :
    toInt32 (c : Int) = (c : Int) := by
  unfold toInt32
  have h0 : (0 : Int) ≤ (c : Int) := by exact_mod_cast Nat.zero_le c
  have h1 : ((c : Int)) < 2 ^ 32 := by exact_mod_cast Nat.lt_trans h (by norm_num)
  rw [Int.emod_eq_of_lt h0 h1]
  simp only [if_pos (show ((c : Int)) < 2 ^ 31 by exact_mod_cast h)]

/-- On counters fitting in 31 bits, the shift by one doubles the value. -/
theorem toUInt32_jsShl_one {c : Nat} (h : c < 2 ^ 31) :
    toUInt32 (jsShl (c : Int) 1) = 2 * c := by
  unfold jsShl
  rw [toUInt32_toInt32, toInt32_natCast_small h]
  have h2 : ((c : Int)) * 2 ^ 1 = ((2 * c : Nat) : Int) := by push_cast; ring
  rw [h2]
  exact toUInt32_natCast_lt (by omega)

/-- Whatever the counter, the shifted 32-bit pattern is even. -/
theorem toUInt32_jsShl_even (a : Int) : toUInt32 (jsShl a 1) % 2 = 0 := by
  unfold jsShl
  rw [toUInt32_toInt32]
  unfold toUInt32
  have h2 : (toInt32 a * 2 ^ 1) % 2 = 0 := by
    have hx : toInt32 a * 2 ^ 1 = 2 * toInt32 a := by ring
    rw [hx]
    exact Int.mul_emod_right 2 (toInt32 a)
  have h1 : ((toInt32 a * 2 ^ 1) % (2 ^ 32)) % 2 = (toInt32 a * 2 ^ 1) % 2 :=
    Int.emod_emod_of_dvd _ (by norm_num)
  have h0 : 0 ≤ (toInt32 a * 2 ^ 1) % (2 ^ 32) := Int.emod_nonneg _ (by norm_num)
  omega

/-- Or-ing a set low bit into an even pattern adds one. -/
theorem or_even_one {u : Nat} (h : u % 2 = 0) : u ||| 1 = u + 1 := by
  apply Nat.eq_of_testBit_eq
  intro i
  cases i with
  | zero =>
    rw [Nat.testBit_or]
    have hu : u.testBit 0 = false := by rw [Nat.testBit_zero]; simp; omega
    have h2 : (u + 1).testBit 0 = true := by rw [Nat.testBit_zero]; simp; omega
    rw [hu, h2]
    rfl
  | succ i =>
    rw [Nat.testBit_or, Nat.testBit_add_one, Nat.testBit_add_one, Nat.testBit_add_one]
    have hdiv : (u + 1) / 2 = u / 2 := by omega
    have h12 : (1 : Nat) / 2 = 0 := by norm_num
    rw [hdiv, h12, Nat.zero_testBit, Bool.or_false]

/-! ## Duplicate-ID minting

session.ts, ProtoV2dSession.send:
  let dupID = overrideDupID ?? ((this._qos1Counter++ << 1) | (this.clientSide ? 0 : 1));
The counter starts at 0 and increases by one per minted ID. -/

/-- The dupID minted by ProtoV2dSession.send for a given counter value and side. -/
def mintDupID (counter : Nat) (clientSide : Bool) : Int :=
  jsOr (jsShl (counter : Int) 1) (if clientSide then 0 else 1)

theorem toUInt32_zero_lit : toUInt32 0 = 0 := by
  unfold toUInt32
  norm_num

theorem toUInt32_one_lit : toUInt32 1 = 1 := by
  unfold toUInt32
  norm_num

theorem toUInt32_mintDupID_value {c : Nat} (side : Bool) (h : c < 2 ^ 31) :
    toUInt32 (mintDupID c side) = 2 * c + (if side then 0 else 1) := by
  unfold mintDupID
  rw [toUInt32_jsOr, toUInt32_jsShl_one h]
  cases side with
  | false =>
    simp only [if_false, Bool.false_eq_true]
    rw [toUInt32_one_lit, or_even_one (by omega)]
  | true =>
    simp only [if_true]
    rw [toUInt32_zero_lit]
    simp

theorem toUInt32_mintDupID_parity (c : Nat) (side : Bool) :
    toUInt32 (mintDupID c side) % 2 = if side then 0 else 1 := by
  unfold mintDupID
  rw [toUInt32_jsOr]
  have heven := toUInt32_jsShl_even ((c : Int))
  cases side with
  | false =>
    simp only [Bool.false_eq_true, if_false]
    rw [toUInt32_one_lit, or_even_one heven]
    omega
  | true =>
    simp only [if_true]
    rw [toUInt32_zero_lit]
    simpa using heven

/-- C8: each QoS-1 dupID is minted as a 32-bit value whose low bit is 0 on the
client side and 1 on the server side and whose upper 31 bits are the counter
at mint time; two same-side mints with distinct counters below 2^31 are
distinct, and a client mint never equals a server mint. -/
theorem c8_dupid_mint :
    (∀ (c : Nat) (side : Bool),
       toUInt32 (mintDupID c side) % 2 = if side then 0 else 1) ∧
    (∀ (c : Nat) (side : Bool), c < 2 ^ 31 →
       toUInt32 (mintDupID c side) / 2 = c) ∧
    (∀ (c1 c2 : Nat) (side : Bool), c1 < 2 ^ 31 → c2 < 2 ^ 31 →
       mintDupID c1 side = mintDupID c2 side → c1 = c2) ∧
    (∀ (c1 c2 : Nat), mintDupID c1 true ≠ mintDupID c2 false) := by
  refine ⟨?_, ?_, ?_, ?_⟩
  · exact fun c side => toUInt32_mintDupID_parity c side
  · intro c side h
    rw [toUInt32_mintDupID_value side h]
    cases side <;> simp <;> omega
  · intro c1 c2 side h1 h2 heq
    have h := congrArg toUInt32 heq
    rw [toUInt32_mintDupID_value side h1, toUInt32_mintDupID_value side h2] at h
    cases side <;> simp at h <;> omega
  · intro c1 c2 heq
    have h := congrArg (fun x => toUInt32 x % 2) heq
    simp only at h
    rw [toUInt32_mintDupID_parity c1 true, toUInt32_mintDupID_parity c2 false] at h
    simp at h

/-- Witness for C8 at concrete counters. -/
theorem c8_dupid_mint_witness :
    toUInt32 (mintDupID 5 true) % 2 = 0 ∧
    toUInt32 (mintDupID 5 true) / 2 = 5 ∧
    mintDupID 3 true ≠ mintDupID 7 false := by
  refine ⟨?_, ?_, ?_⟩
  · have h := c8_dupid_mint.1 5 true
    simpa using h
  · exact c8_dupid_mint.2.1 5 true (by norm_num)
  · exact c8_dupid_mint.2.2.2 3 7

/-! ## JS Map and Set semantics

JS Map.has / Map.get / Map.set / Map.delete and Set membership over an
association list in insertion order.  Map.set updates an existing key in
place and otherwise appends. -/

section MapModel

variable {κ α : Type} [DecidableEq κ]

def mapHas (m : List (κ × α)) (k : κ) : Bool := m.any (fun p => decide (p.1 = k))

def mapGet? (m : List (κ × α)) (k : κ) : Option α :=
  (m.find? (fun p => decide (p.1 = k))).map Prod.snd

def mapSet (m : List (κ × α)) (k : κ) (v : α) : List (κ × α) :=
  if mapHas m k then m.map (fun p => if p.1 = k then (k, v) else p) else m ++ [(k, v)]

def mapDelete (m : List (κ × α)) (k : κ) : List (κ × α) :=
  m.filter (fun p => decide (p.1 ≠ k))

def setHas (s : List κ) (k : κ) : Bool := s.any (fun x => decide (x = k))

def setAdd (s : List κ) (k : κ) : List κ := if setHas s k then s else s ++ [k]

def setDelete (s : List κ) (k : κ) : List κ := s.filter (fun x => decide (x ≠ k))

theorem mapGet?_nil (k : κ) : mapGet? ([] : List (κ × α)) k = none := rfl

theorem mapHas_eq_isSome_mapGet? (m : List (κ × α)) (k : κ) :
    mapHas m k = (mapGet? m k).isSome := by
  induction m with
  | nil => rfl
  | cons p t ih =>
    by_cases h : p.1 = k
    · simp [mapHas, mapGet?, List.any_cons, List.find?, h]
    · simp only [mapHas, List.any_cons, decide_eq_true_eq] at ih ⊢
      simp only [mapGet?, List.find?] at ih ⊢
      rw [decide_eq_false h]
      simpa [h] using ih

theorem mapGet?_map_update_ne (t : List (κ × α)) (k d : κ) (v : α) (hd : d ≠ k) :
    mapGet? (t.map (fun p => if p.1 = k then (k, v) else p)) d = mapGet? t d := by
  induction t with
  | nil => rfl
  | cons p t ih =>
    by_cases hp : p.1 = k
    · simp only [List.map_cons, if_pos hp, mapGet?, List.find?]
      rw [decide_eq_false (fun h => hd h.symm), decide_eq_false (fun h => hd (hp ▸ h).symm)]
      exact ih
    · simp only [List.map_cons, if_neg hp, mapGet?, List.find?]
      by_cases hpd : p.1 = d
      · rw [decide_eq_true hpd]
      · rw [decide_eq_false hpd]
        exact ih

theorem mapGet?_map_update_self (t : List (κ × α)) (k : κ) (v : α)
    (hhas : mapHas t k = true) :
    mapGet? (t.map (fun p => if p.1 = k then (k, v) else p)) k = some v := by
  induction t with
  | nil => simp [mapHas] at hhas
  | cons p t ih =>
    by_cases hp : p.1 = k
    · simp [mapGet?, List.find?, if_pos hp]
    · simp only [List.map_cons, if_neg hp, mapGet?, List.find?]
      rw [decide_eq_false hp]
      apply ih
      have hex : ∃ q ∈ p :: t, q.1 = k := by
        simpa [mapHas, List.any_eq_true] using hhas
      rcases hex with ⟨q, hq, hqk⟩
      rcases List.mem_cons.mp hq with rfl | hq2
      · exact absurd hqk hp
      · simp only [mapHas, List.any_eq_true, decide_eq_true_eq]
        exact ⟨q, hq2, hqk⟩

theorem mapGet?_append_single_self (t : List (κ × α)) (k : κ) (v : α)
    (hhas : mapHas t k = false) :
    mapGet? (t ++ [(k, v)]) k = some v := by
  induction t with
  | nil => simp [mapGet?, List.find?]
  | cons p t ih =>
    simp only [mapHas, List.any_cons, Bool.or_eq_false_iff, decide_eq_false_iff_not] at hhas
    simp only [List.cons_append, mapGet?, List.find?]
    rw [decide_eq_false hhas.1]
    apply ih
    simpa [mapHas] using hhas.2

theorem mapGet?_append_single_ne (t : List (κ × α)) (k d : κ) (v : α) (hd : d ≠ k) :
    mapGet? (t ++ [(k, v)]) d = mapGet? t d := by
  induction t with
  | nil =>
    have hkd : decide (k = d) = false := decide_eq_false (fun h => hd h.symm)
    simp [mapGet?, List.find?, hkd]
  | cons p t ih =>
    simp only [List.cons_append, mapGet?, List.find?]
    by_cases hpd : p.1 = d
    · rw [decide_eq_true hpd]
    · rw [decide_eq_false hpd]
      exact ih

/-- Characterization of JS Map.get after Map.set. -/
theorem mapGet?_mapSet (m : List (κ × α)) (k d : κ) (v : α) :
    mapGet? (mapSet m k v) d = if d = k then some v else mapGet? m d := by
  unfold mapSet
  by_cases hhas : mapHas m k
  · rw [if_pos hhas]
    by_cases hd : d = k
    · subst hd
      rw [if_pos rfl]
      exact mapGet?_map_update_self m d v hhas
    · rw [if_neg hd]
      exact mapGet?_map_update_ne m k d v hd
  · rw [if_neg hhas]
    by_cases hd : d = k
    · subst hd
      rw [if_pos rfl]
      exact mapGet?_append_single_self m d v (by simpa using hhas)
    · rw [if_neg hd]
      exact mapGet?_append_single_ne m k d v hd

/-- Characterization of JS Map.has after Map.set. -/
theorem mapHas_mapSet (m : List (κ × α)) (k d : κ) (v : α) :
    mapHas (mapSet m k v) d = (mapHas m d || decide (d = k)) := by
  rw [mapHas_eq_isSome_mapGet?, mapGet?_mapSet]
  by_cases hd : d = k
  · simp [hd]
  · simp [hd, mapHas_eq_isSome_mapGet?]

end MapModel

/-! ## Session receive path

session.ts, ProtoV2dSession._handleIncomingWCMessage, case 0x03: the
frame body is decrypted with the key stack and then dispatched on the
QoS byte.  We model the handler at the level of the decrypted packet;
outgoing acks are recorded as the plaintext packet handed to _encrypt
and sent as a 0x03 frame. -/

/-- JS indexing packet[i]: a missing index yields undefined, which both
ToInt32 and the comparisons of the handler treat as 0 / non-matching. -/
def byteAt (l : List Nat) (i : Nat) : Nat := l.getD i 0

/-- session.ts line 241:
  (packet[1] << 24) | (packet[2] << 16) | (packet[3] << 8) | packet[4] -/
def parseDupID (packet : List Nat) : Int :=
  jsOr (jsOr (jsOr (jsShl ((byteAt packet 1 : Nat) : Int) 24)
                   (jsShl ((byteAt packet 2 : Nat) : Int) 16))
             (jsShl ((byteAt packet 3 : Nat) : Int) 8))
       ((byteAt packet 4 : Nat) : Int)

/-- The four big-endian bytes (dupID >> k) & 0xFF used when echoing a dupID. -/
def dupIDBytes (d : Int) : List Nat :=
  [(jsAnd (jsShr d 24) 255).toNat, (jsAnd (jsShr d 16) 255).toNat,
   (jsAnd (jsShr d 8) 255).toNat, (jsAnd d 255).toNat]

/-- Plaintext of the acknowledgement packet
  [0x01, bytes of dupID, 0xFF] built at session.ts lines 260-267. -/
def ackPacket (d : Int) : List Nat := [1] ++ dupIDBytes d ++ [255]

/-- Value stored in the _qos1Buffer map: payload bytes, or the literal
`true` marker recorded for delivered or acknowledged dupIDs. -/
inductive BufVal where
  | bytes (data : List Nat)
  | mark
  deriving DecidableEq

/-- The QoS-1 bookkeeping of a ProtoV2dSession: _qos1Buffer, _qos1Wait,
_qos1ACKCallback (callbacks tracked by opaque identifiers) and whether
this._wc is currently non-null. -/
structure SessionQoS where
  qos1Buffer : List (Int × BufVal)
  qos1Wait : List Int
  qos1ACKCallback : List (Int × Nat)
  hasWC : Bool
  closed : Bool
  deriving DecidableEq

/-- Observable effects of one handler run: data observer emissions,
plaintext packets sent through the transport, invoked ACK callbacks. -/
structure RecvEffects where
  dataEvents : List (Nat × List Nat)
  sentPackets : List (List Nat)
  invoked : List Nat
  deriving DecidableEq

/-- The case 0x03 body of _handleIncomingWCMessage on the decrypted
packet.  QoS 0 emits the payload; QoS 1 with ctrl 0xFF resolves a
pending ACK callback; QoS 1 otherwise delivers the payload only when the
dupID is not yet in _qos1Buffer, marks it, and always echoes an ack
(when a transport is attached, via the optional chaining on this._wc). -/
def handleDataPacket (st : SessionQoS) (packet : List Nat) : SessionQoS × RecvEffects :=
  if byteAt packet 0 = 0 then
    (st, ⟨[(0, packet.drop 1)], [], []⟩)
  else if byteAt packet 0 = 1 then
    if byteAt packet 5 = 255 then
      if setHas st.qos1Wait (parseDupID packet) = false then
        (st, ⟨[], [], []⟩)
      else
        ({ st with qos1ACKCallback := mapDelete st.qos1ACKCallback (parseDupID packet) },
         ⟨[], [], (mapGet? st.qos1ACKCallback (parseDupID packet)).toList⟩)
    else
      if mapHas st.qos1Buffer (parseDupID packet) = false then
        ({ st with qos1Buffer := mapSet st.qos1Buffer (parseDupID packet) BufVal.mark },
         ⟨[(1, packet.drop 6)],
          if st.hasWC then [ackPacket (parseDupID packet)] else [], []⟩)
      else
        (st, ⟨[], if st.hasWC then [ackPacket (parseDupID packet)] else [], []⟩)
  else
    (st, ⟨[], [], []⟩)

/-- Once a dupID is marked in _qos1Buffer, no handler run unmarks it. -/
theorem handleDataPacket_buffer_monotone (st : SessionQoS) (packet : List Nat) (d : Int)
    (h : mapHas st.qos1Buffer d = true) :
    mapHas (handleDataPacket st packet).1.qos1Buffer d = true := by
  unfold handleDataPacket
  split_ifs <;> simp [mapHas_mapSet, h]

/-- The dupID carried by a QoS-1 data (non-ack) packet, if any. -/
def qos1DataDupID (packet : List Nat) : Option Int :=
  if byteAt packet 0 = 1 ∧ byteAt packet 5 ≠ 255 then some (parseDupID packet) else none

/-- Number of data-observer emissions attributable to dupID d over a
trace of decrypted incoming data packets. -/
def dataEmitsFor (st : SessionQoS) (packets : List (List Nat)) (d : Int) : Nat :=
  match packets with
  | [] => 0
  | p :: rest =>
    (if qos1DataDupID p = some d then ((handleDataPacket st p).2.dataEvents).length else 0) +
      dataEmitsFor (handleDataPacket st p).1 rest d

theorem qos1DataDupID_eq_some {p : List Nat} {d : Int}
    (h : qos1DataDupID p = some d) :
    byteAt p 0 = 1 ∧ byteAt p 5 ≠ 255 ∧ parseDupID p = d := by
  unfold qos1DataDupID at h
  by_cases hc : byteAt p 0 = 1 ∧ byteAt p 5 ≠ 255
  · rw [if_pos hc] at h
    injection h with h2
    exact ⟨hc.1, hc.2, h2⟩
  · rw [if_neg hc] at h
    cases h

/-- Unfolding the QoS-1 data branch of the handler for a fresh dupID. -/
theorem handleDataPacket_fresh {st : SessionQoS} {p : List Nat}
    (h0 : byteAt p 0 = 1) (h5 : byteAt p 5 ≠ 255)
    (hnm : mapHas st.qos1Buffer (parseDupID p) = false) :
    handleDataPacket st p =
      ({ st with qos1Buffer := mapSet st.qos1Buffer (parseDupID p) BufVal.mark },
       ⟨[(1, p.drop 6)],
        if st.hasWC then [ackPacket (parseDupID p)] else [], []⟩) := by
  unfold handleDataPacket
  rw [h0]
  rw [if_neg (by norm_num), if_pos rfl, if_neg h5, if_pos hnm]

/-- Unfolding the QoS-1 data branch of the handler for a delivered dupID. -/
theorem handleDataPacket_dup {st : SessionQoS} {p : List Nat}
    (h0 : byteAt p 0 = 1) (h5 : byteAt p 5 ≠ 255)
    (hm : mapHas st.qos1Buffer (parseDupID p) = true) :
    handleDataPacket st p =
      (st, ⟨[], if st.hasWC then [ackPacket (parseDupID p)] else [], []⟩) := by
  unfold handleDataPacket
  rw [h0]
  rw [if_neg (by norm_num), if_pos rfl, if_neg h5, if_neg (by rw [hm]; simp)]

theorem dataEmitsFor_zero_of_marked (st : SessionQoS) (packets : List (List Nat)) (d : Int)
    (h : mapHas st.qos1Buffer d = true) :
    dataEmitsFor st packets d = 0 := by
  induction packets generalizing st with
  | nil => rfl
  | cons p rest ih =>
    unfold dataEmitsFor
    rw [ih _ (handleDataPacket_buffer_monotone st p d h)]
    by_cases hp : qos1DataDupID p = some d
    · obtain ⟨h0, h5, hd⟩ := qos1DataDupID_eq_some hp
      rw [handleDataPacket_dup h0 h5 (hd ▸ h)]
      simp
    · rw [if_neg hp]

/-- C1 helper: a trace of incoming frames emits the data observer at most
once for any given dupID. -/
theorem dataEmitsFor_le_one (st : SessionQoS) (packets : List (List Nat)) (d : Int) :
    dataEmitsFor st packets d ≤ 1 := by
  induction packets generalizing st with
  | nil => exact Nat.zero_le 1
  | cons p rest ih =>
    by_cases h : mapHas st.qos1Buffer d = true
    · rw [dataEmitsFor_zero_of_marked st (p :: rest) d h]
      omega
    · unfold dataEmitsFor
      by_cases hp : qos1DataDupID p = some d
      · obtain ⟨h0, h5, hd⟩ := qos1DataDupID_eq_some hp
        have hnm : mapHas st.qos1Buffer (parseDupID p) = false := by
          rw [hd]
          simpa using h
        rw [handleDataPacket_fresh h0 h5 hnm]
        have hmarked : mapHas (mapSet st.qos1Buffer (parseDupID p) BufVal.mark) d = true := by
          rw [mapHas_mapSet]
          simp [hd]
        rw [dataEmitsFor_zero_of_marked _ rest d hmarked]
        simp [hp]
      · rw [if_neg hp]
        simpa using ih (handleDataPacket st p).1

/-- C1: an incoming QoS-1 data frame (ctrl byte not 0xFF) delivers its
payload to the data observer only when its dupID is not yet marked in
_qos1Buffer, marks the dupID together with delivery, and always sends an
ack packet for that dupID; a duplicate is acked again without
re-emission, and over any trace of incoming frames the data observer
fires at most once per dupID. -/
theorem c1_qos1_receive (st : SessionQoS) (p : List Nat)
    (h0 : byteAt p 0 = 1) (h5 : byteAt p 5 ≠ 255) (hwc : st.hasWC = true) :
    (mapHas st.qos1Buffer (parseDupID p) = false →
       (handleDataPacket st p).2.dataEvents = [(1, p.drop 6)] ∧
       mapHas (handleDataPacket st p).1.qos1Buffer (parseDupID p) = true) ∧
    (mapHas st.qos1Buffer (parseDupID p) = true →
       (handleDataPacket st p).2.dataEvents = [] ∧
       (handleDataPacket st p).1 = st) ∧
    (handleDataPacket st p).2.sentPackets = [ackPacket (parseDupID p)] ∧
    (∀ (st2 : SessionQoS) (packets : List (List Nat)) (d : Int),
       dataEmitsFor st2 packets d ≤ 1) := by
  refine ⟨?_, ?_, ?_, fun st2 packets d => dataEmitsFor_le_one st2 packets d⟩
  · intro hnm
    rw [handleDataPacket_fresh h0 h5 hnm]
    refine ⟨rfl, ?_⟩
    simp [mapHas_mapSet]
  · intro hm
    rw [handleDataPacket_dup h0 h5 hm]
    exact ⟨rfl, rfl⟩
  · by_cases hnm : mapHas st.qos1Buffer (parseDupID p) = false
    · rw [handleDataPacket_fresh h0 h5 hnm]
      simp [hwc]
    · rw [handleDataPacket_dup h0 h5 (by simpa using hnm)]
      simp [hwc]

/-- Witness for C1 on a fresh session receiving dupID 4 and payload [9]. -/
theorem c1_qos1_receive_witness :
    (handleDataPacket ⟨[], [], [], true, false⟩ [1, 0, 0, 0, 4, 0, 9]).2.dataEvents = [(1, [9])] ∧
    (handleDataPacket ⟨[], [], [], true, false⟩ [1, 0, 0, 0, 4, 0, 9]).2.sentPackets =
      [ackPacket (parseDupID [1, 0, 0, 0, 4, 0, 9])] := by
  have h := c1_qos1_receive ⟨[], [], [], true, false⟩ [1, 0, 0, 0, 4, 0, 9]
    (by rfl) (by decide) rfl
  exact ⟨(h.1 (by rfl)).1, h.2.2.1⟩

/-! ## Transport swap and QoS-1 re-arm

session.ts: the wc setter detaches the old transport and calls
_handleWC on the new one.  _handleWC starts the ping clock; on the
client side it pings immediately and re-runs send(1, data, dupID) for
every dupID of _qos1Wait whose payload is still in _qos1Buffer; on the
server side both the first ping and this retry loop are chained on
_waitPromise, which resolves on the first incoming client ping frame
(data[0] = 0x04 and data[1] = 0x00). -/

/-- The (dupID, buffered payload) pairs re-sent by the retry loop of
_handleWC, preserving each original dupID. -/
def resendList (wait : List Int) (buffer : List (Int × BufVal)) : List (Int × BufVal) :=
  wait.filterMap (fun dupID => (mapGet? buffer dupID).map (fun v => (dupID, v)))

/-- Actions performed by _handleWC, split into those run at once and
those deferred behind _waitPromise. -/
structure HandleWCResult where
  immediatePing : Bool
  immediateResends : List (Int × BufVal)
  deferredPing : Bool
  deferredResends : List (Int × BufVal)
  deriving DecidableEq

/-- session.ts lines 150-207. -/
def handleWC (clientSide : Bool) (wait : List Int) (buffer : List (Int × BufVal)) :
    HandleWCResult :=
  if clientSide then
    ⟨true, resendList wait buffer, false, []⟩
  else
    ⟨false, [], true, resendList wait buffer⟩

/-- The guard of handlePingPacket in the server branch of _handleWC:
data[0] must be 0x04 and data[1] must be 0x00. -/
def isClientPingFrame (frame : List Nat) : Bool :=
  decide (frame[0]? = some 4) && decide (frame[1]? = some 0)

/-- Whether _waitPromise has resolved after observing a list of frames. -/
def serverDeferredFired (frames : List (List Nat)) : Bool :=
  frames.any isClientPingFrame

theorem setHas_iff_mem {κ : Type} [DecidableEq κ] (s : List κ) (k : κ) :
    setHas s k = true ↔ k ∈ s := by
  simp [setHas, List.any_eq_true]

/-- C4: on transport reassignment every dupID still awaiting an ack whose
payload is buffered is re-sent with its original dupID; the client side
re-arms and pings immediately, the server side defers the re-arm and its
first ping until the first client ping frame has been observed. -/
theorem c4_transport_swap (wait : List Int) (buffer : List (Int × BufVal)) :
    ((handleWC true wait buffer).immediatePing = true ∧
     (handleWC true wait buffer).immediateResends = resendList wait buffer ∧
     (handleWC true wait buffer).deferredResends = []) ∧
    ((handleWC false wait buffer).immediateResends = [] ∧
     (handleWC false wait buffer).immediatePing = false ∧
     (handleWC false wait buffer).deferredPing = true ∧
     (handleWC false wait buffer).deferredResends = resendList wait buffer) ∧
    (∀ d : Int, setHas wait d = true → mapHas buffer d = true →
       ∃ v, mapGet? buffer d = some v ∧ (d, v) ∈ resendList wait buffer) ∧
    (∀ frames : List (List Nat),
       serverDeferredFired frames = true ↔ ∃ f ∈ frames, isClientPingFrame f = true) := by
  refine ⟨⟨rfl, rfl, rfl⟩, ⟨rfl, rfl, rfl, rfl⟩, ?_, ?_⟩
  · intro d hwait hbuf
    rw [mapHas_eq_isSome_mapGet?] at hbuf
    obtain ⟨v, hv⟩ := Option.isSome_iff_exists.mp hbuf
    refine ⟨v, hv, ?_⟩
    unfold resendList
    rw [List.mem_filterMap]
    exact ⟨d, (setHas_iff_mem wait d).mp hwait, by rw [hv]; rfl⟩
  · intro frames
    exact List.any_eq_true

/-- Witness for C4 with one waiting buffered dupID. -/
theorem c4_transport_swap_witness :
    (6, BufVal.bytes [1, 2]) ∈ resendList [6] [(6, BufVal.bytes [1, 2])] ∧
    (handleWC false [6] [(6, BufVal.bytes [1, 2])]).deferredResends =
      resendList [6] [(6, BufVal.bytes [1, 2])] := by
  have h := c4_transport_swap [6] [(6, BufVal.bytes [1, 2])]
  obtain ⟨v, hv, hmem⟩ := h.2.2.1 6 (by decide) (by decide)
  have hv2 : v = BufVal.bytes [1, 2] := by
    have heval : mapGet? [((6 : Int), BufVal.bytes [1, 2])] 6 = some (BufVal.bytes [1, 2]) := by
      decide
    rw [heval] at hv
    injection hv with h2
    exact h2.symm
  rw [hv2] at hmem
  exact ⟨hmem, h.2.1.2.2.2⟩

/-! ## Session close and the fate of pending QoS-1 sends

session.ts, ProtoV2dSession.close (lines 311-324): sets closed, emits
close on the transport, nulls the wc pointer and clears _qos1Buffer,
_qos1Wait and _qos1ACKCallback.  The body contains no call to any
stored ACK callback.  ProtoV2dSession.send (lines 327-372): when the
session is not connected the QoS-1 loop throws, and the enclosing catch
runs this._qos1ACKCallback.set(dupID, resolve), leaving the send
promise pending. -/

/-- Result of ProtoV2dSession.close: the successor state together with
the list of ACK callbacks invoked during the call. -/
def closeSession (st : SessionQoS) : SessionQoS × List Nat :=
  ({ st with closed := true, hasWC := false,
             qos1Buffer := [], qos1Wait := [], qos1ACKCallback := [] }, [])

/-- How a QoS-1 send promise can end up after a loop pass. -/
inductive SendOutcome where
  | resolvedAck
  | pending
  | rejectedError
  deriving DecidableEq

/-- One pass of the QoS-1 send loop while disconnected: the throw is
caught and the resolver is re-registered as the ACK callback of the
dupID; the promise is neither resolved nor rejected. -/
def sendQos1Disconnected (st : SessionQoS) (dupID : Int) (resolver : Nat) :
    SessionQoS × SendOutcome :=
  ({ st with qos1ACKCallback := mapSet st.qos1ACKCallback dupID resolver },
   SendOutcome.pending)

/-- Counterexample to claim C6: a session with a pending send promise
(resolver 99 registered for dupID 4) is closed, and the close call
settles nothing: the invoked-resolver list is empty even though a
resolver was pending. -/
theorem c6_close_counterexample :
    mapGet? (⟨[(4, BufVal.bytes [7])], [4], [(4, 99)], true, false⟩ :
        SessionQoS).qos1ACKCallback 4 = some 99 ∧
    (closeSession ⟨[(4, BufVal.bytes [7])], [4], [(4, 99)], true, false⟩).2 = [] ∧
    ¬ (99 : Nat) ∈ (closeSession ⟨[(4, BufVal.bytes [7])], [4], [(4, 99)], true, false⟩).2 := by
  refine ⟨by decide, rfl, by decide⟩

/-- C6 amended: closing a session clears the outbox, the awaiting-ack
set and the ACK-callback map and invokes no resolver, so a pending
QoS-1 send promise is left unsettled (neither resolved nor rejected)
rather than settled with an error; and a send pass during a transient
disconnect leaves the promise pending, never rejected. -/
theorem c6_close_pending_sends (st : SessionQoS) (dupID : Int) (resolver : Nat) :
    (closeSession st).1.qos1Buffer = [] ∧
    (closeSession st).1.qos1Wait = [] ∧
    (closeSession st).1.qos1ACKCallback = [] ∧
    (closeSession st).1.closed = true ∧
    (closeSession st).2 = [] ∧
    (∀ (d : Int) (r : Nat), mapGet? st.qos1ACKCallback d = some r →
       ¬ r ∈ (closeSession st).2 ∧
       mapHas (closeSession st).1.qos1ACKCallback d = false) ∧
    (sendQos1Disconnected st dupID resolver).2 = SendOutcome.pending ∧
    (sendQos1Disconnected st dupID resolver).2 ≠ SendOutcome.rejectedError := by
  refine ⟨rfl, rfl, rfl, rfl, rfl, ?_, rfl, fun h => SendOutcome.noConfusion h⟩
  intro d r _
  exact ⟨List.not_mem_nil r, rfl⟩

/-- Witness for C6 amended at a session with one pending resolver. -/
theorem c6_close_pending_sends_witness :
    ¬ (99 : Nat) ∈ (closeSession ⟨[], [], [(4, 99)], true, false⟩).2 ∧
    mapHas (closeSession ⟨[], [], [(4, 99)], true, false⟩).1.qos1ACKCallback 4 = false ∧
    (sendQos1Disconnected ⟨[], [], [], false, false⟩ 4 99).2 = SendOutcome.pending :=
  ⟨((c6_close_pending_sends ⟨[], [], [(4, 99)], true, false⟩ 4 99).2.2.2.2.2.1 4 99
      (by decide)).1,
   ((c6_close_pending_sends ⟨[], [], [(4, 99)], true, false⟩ 4 99).2.2.2.2.2.1 4 99
      (by decide)).2,
   (c6_close_pending_sends ⟨[], [], [], false, false⟩ 4 99).2.2.2.2.2.2.1⟩

/-! ## Server session establishment

server.ts, handleWrappedConnection, lines 719-742: after both session
signatures verify, the server computes sessionID as the hex of the full
session public key; it resumes an existing non-closed session (swapping
its transport, key stack and protocol version, emitting nothing) and
otherwise creates a fresh session, inserts it and emits connection. -/

/-- The per-session fields that lines 729-741 touch. -/
structure SrvSession where
  connectionPK : String
  protocolVersion : Nat
  clientSide : Bool
  wcId : Option Nat
  encryption : List Nat
  closed : Bool
  deriving DecidableEq

/-- new ProtoV2dSession(sessionID, 2, false, wc, keys). -/
def freshSession (sessionID : String) (wcId : Nat) (keys : List Nat) : SrvSession :=
  ⟨sessionID, 2, false, some wcId, keys, false⟩

structure EstablishResult where
  sessions : List (String × SrvSession)
  newSession : Bool
  connectionEvents : List String
  deriving DecidableEq

/-- server.ts lines 724-742.  The source tests
sessions.has(sessionID) && !sessions.get(sessionID).closed; the resume
branch reassigns clientSide, protocolVersion, wc and encryption of the
existing object, the other branch constructs, inserts and emits. -/
def handleSessionEstablish (sessions : List (String × SrvSession)) (sessionID : String)
    (wcId : Nat) (keys : List Nat) : EstablishResult :=
  match mapGet? sessions sessionID with
  | some s =>
    if s.closed = false then
      { sessions := mapSet sessions sessionID
          { s with clientSide := false, protocolVersion := 2,
                   wcId := some wcId, encryption := keys },
        newSession := false, connectionEvents := [] }
    else
      { sessions := mapSet sessions sessionID (freshSession sessionID wcId keys),
        newSession := true, connectionEvents := [sessionID] }
  | none =>
      { sessions := mapSet sessions sessionID (freshSession sessionID wcId keys),
        newSession := true, connectionEvents := [sessionID] }

/-- C3: a successful handshake whose session ID matches a non-closed
entry of the session map reuses that session object, swapping its
transport, replacing its key stack and recording protocol version 2
without emitting connection; any other successful handshake installs a
fresh session under the session ID and emits connection exactly for it. -/
theorem c3_session_establishment (sessions : List (String × SrvSession))
    (sid : String) (wcId : Nat) (keys : List Nat) :
    (∀ s : SrvSession, mapGet? sessions sid = some s → s.closed = false →
       (handleSessionEstablish sessions sid wcId keys).newSession = false ∧
       (handleSessionEstablish sessions sid wcId keys).connectionEvents = [] ∧
       mapGet? (handleSessionEstablish sessions sid wcId keys).sessions sid =
         some { s with clientSide := false, protocolVersion := 2,
                       wcId := some wcId, encryption := keys }) ∧
    ((mapGet? sessions sid = none ∨
        (∃ s : SrvSession, mapGet? sessions sid = some s ∧ s.closed = true)) →
       (handleSessionEstablish sessions sid wcId keys).newSession = true ∧
       (handleSessionEstablish sessions sid wcId keys).connectionEvents = [sid] ∧
       mapGet? (handleSessionEstablish sessions sid wcId keys).sessions sid =
         some (freshSession sid wcId keys)) := by
  constructor
  · intro s hget hclosed
    have hred : handleSessionEstablish sessions sid wcId keys =
        { sessions := mapSet sessions sid
            { s with clientSide := false, protocolVersion := 2,
                     wcId := some wcId, encryption := keys },
          newSession := false, connectionEvents := [] } := by
      unfold handleSessionEstablish
      rw [hget]
      exact if_pos hclosed
    rw [hred]
    refine ⟨rfl, rfl, ?_⟩
    rw [mapGet?_mapSet]
    simp
  · intro hfresh
    have hred : handleSessionEstablish sessions sid wcId keys =
        { sessions := mapSet sessions sid (freshSession sid wcId keys),
          newSession := true, connectionEvents := [sid] } := by
      unfold handleSessionEstablish
      rcases hfresh with hnone | ⟨s, hget, hclosed⟩
      · rw [hnone]
      · rw [hget]
        exact if_neg (by simp [hclosed])
    rw [hred]
    refine ⟨rfl, rfl, ?_⟩
    rw [mapGet?_mapSet]
    simp

/-- Witness for C3: one resume on a live session and one fresh install. -/
theorem c3_session_establishment_witness :
    (handleSessionEstablish [("a", ⟨"a", 1, true, none, [5], false⟩)] "a" 2 [7, 8]).newSession
      = false ∧
    (handleSessionEstablish [("a", ⟨"a", 1, true, none, [5], false⟩)] "a" 2 [7, 8]).connectionEvents
      = [] ∧
    (handleSessionEstablish [] "b" 3 [9]).newSession = true ∧
    (handleSessionEstablish [] "b" 3 [9]).connectionEvents = ["b"] := by
  have h1 := (c3_session_establishment [("a", ⟨"a", 1, true, none, [5], false⟩)] "a" 2 [7, 8]).1
    ⟨"a", 1, true, none, [5], false⟩ (by decide) rfl
  have h2 := (c3_session_establishment [] "b" 3 [9]).2 (Or.inl rfl)
  exact ⟨h1.1, h1.2.1, h2.1, h2.2.1⟩

/-! ## The post-verification reply frame

server.ts lines 725-737: after the signatures verify the server sends
wc.send([0x04, 0x00]) when resuming and wc.send([0x04, 0x01]) when a
fresh session is created.  client.ts, onIncomingData: while the
handshake is not complete any frame whose first byte is not 0x02 is
rejected, and the packet-2 handler additionally requires the second
byte to be 0x04. -/

/-- The bytes the server actually sends after verifying the session
signatures (server.ts 727 and 736). -/
def serverSessionReply (resumed : Bool) : List Nat :=
  if resumed then [4, 0] else [4, 1]

/-- Modelled from the spec: the reply frame the specification describes,
0x02 0x04 followed by the newSession byte (0 on resume, 1 on fresh). -/
def specSessionReply (resumed : Bool) : List Nat :=
  [2, 4, if resumed then 0 else 1]

/-- client.ts lines 309-311 and 567-569: the checks an incoming
handshake-completion frame must pass on the client. -/
def clientAcceptsSessionReply (frame : List Nat) : Bool :=
  decide (byteAt frame 0 = 2) && decide (byteAt frame 1 = 4)

/-- C2 evaluation: the server reply after verification is [0x04, n] and
not the [0x02, 0x04, n] frame of the claim; the client of the same
repository rejects the frame the server sends and accepts the frame the
claim describes. -/
theorem c2_session_reply_bytes :
    serverSessionReply true = [4, 0] ∧
    serverSessionReply false = [4, 1] ∧
    specSessionReply true = [2, 4, 0] ∧
    specSessionReply false = [2, 4, 1] ∧
    serverSessionReply true ≠ specSessionReply true ∧
    serverSessionReply false ≠ specSessionReply false ∧
    clientAcceptsSessionReply (serverSessionReply false) = false ∧
    clientAcceptsSessionReply (serverSessionReply true) = false ∧
    clientAcceptsSessionReply (specSessionReply false) = true ∧
    clientAcceptsSessionReply (specSessionReply true) = true := by
  decide

/-! ## Transport adapter closed flag

connection.ts lines 21-32: the class initializes closed = false and the
constructor registers this.on("close", () => closed = true).  The
assignment in the listener is written without `this.`, so the
identifier resolves to the enclosing scope, not the instance field. -/

/-- Instance state of WrappedConnection. -/
structure WCState where
  closed : Bool
  deriving DecidableEq

/-- The enclosing-scope binding that the bare identifier in the listener
body resolves to. -/
structure OuterScope where
  closed : Bool
  deriving DecidableEq

/-- The close listener registered by the constructor, as written:
it assigns the outer binding and leaves the instance field alone. -/
def wcCloseListener (inst : WCState) (outer : OuterScope) : WCState × OuterScope :=
  (inst, { outer with closed := true })

/-- Emitting close runs the registered listener. -/
def emitClose (inst : WCState) (outer : OuterScope) : WCState × OuterScope :=
  wcCloseListener inst outer

/-- The earlier revision of the same constructor registers
this.on("close", () => this.closed = true), updating the instance. -/
def wcCloseListenerIntended (inst : WCState) (outer : OuterScope) : WCState × OuterScope :=
  ({ inst with closed := true }, outer)

/-- session.ts connected getter: !(this.wc || { closed: true }).closed. -/
def sessionConnected (wc : Option WCState) : Bool :=
  match wc with
  | none => false
  | some w => !w.closed

/-- C10 evaluation: after emitting close once on a fresh adapter the
public closed flag is still false and the owning session still reports
connected; under the earlier revision of the listener the flag becomes
true and the session reports disconnected.  The assignment lands on the
outer binding instead. -/
theorem c10_closed_flag_bug :
    (emitClose ⟨false⟩ ⟨false⟩).1.closed = false ∧
    sessionConnected (some (emitClose ⟨false⟩ ⟨false⟩).1) = true ∧
    (emitClose ⟨false⟩ ⟨false⟩).2.closed = true ∧
    (wcCloseListenerIntended ⟨false⟩ ⟨false⟩).1.closed = true ∧
    sessionConnected (some (wcCloseListenerIntended ⟨false⟩ ⟨false⟩).1) = false := by
  decide

/-! ## Proxy-chain IP resolution

utils.ts, proxyTrustResolver (lines 21-72).  The CIDR-array branch pops
entries from the end of the chain in a while loop; inside the body, the
for loop over trustedIPs contains only a continue statement, and that
continue targets the inner for loop itself, so control always reaches
the trailing break: the while loop never runs a second iteration.  The
parsing and subnet tests of the ip-address library are parameters. -/

section ProxyResolver

variable {IP CIDR : Type}

/-- The trustProxy configuration: a boolean or a CIDR array.  In the
source the test if (trustedIPs) is truthy for any array, even empty. -/
inductive TrustProxyConfig (CIDR : Type) where
  | flag (b : Bool)
  | cidrs (l : List CIDR)

/-- The while loop of the CIDR-array branch, walking the reversed chain
(pop order).  An exhausted or empty-string pop ends the loop with the
current realIP; a hop both constructors reject breaks with the current
realIP; otherwise realIP is set to the parsed hop and, because the for
loop over trustedIPs only continues itself, the trailing break always
runs.  The subnet tests are computed and discarded, as in the source. -/
def resolverLoopRev (tryParse : String → Option IP) (inSubnet : IP → CIDR → Bool)
    (trusted : List CIDR) : List String → Option IP → Option IP
  | [], realIP => realIP
  | proxy :: _, realIP =>
    if proxy = "" then realIP
    else
      match tryParse proxy with
      | none => realIP
      | some ip =>
        let _subnetChecks := trusted.map (inSubnet ip)
        some ip

/-- utils.ts proxyTrustResolver.  tryParse stands for
new Address6(s) with fallback new Address4(s), None when both throw. -/
def proxyTrustResolver (tryParse : String → Option IP) (inSubnet : IP → CIDR → Bool)
    (chainedIPs : List String) (cfg : TrustProxyConfig CIDR) : Option IP :=
  match cfg with
  | .cidrs trusted => resolverLoopRev tryParse inSubnet trusted chainedIPs.reverse none
  | .flag true => tryParse (chainedIPs.headD "")
  | .flag false => tryParse ((chainedIPs.getLast?).getD "")

/-- Follows the wording of the specification: walk the chain from the
trusted (rightmost) end inward, advancing past every hop whose IP lies
inside some trusted CIDR, and return the first hop outside all of them.
Takes the reversed chain, like the loop above. -/
def proxyWalkSpec (tryParse : String → Option IP) (inSubnet : IP → CIDR → Bool)
    (trusted : List CIDR) : List String → Option IP
  | [] => none
  | proxy :: rest =>
    match tryParse proxy with
    | none => none
    | some ip =>
      if trusted.any (inSubnet ip) then proxyWalkSpec tryParse inSubnet trusted rest
      else some ip

/-- C5 evaluation at the failing input: with a trusted list covering the
address 10.0.0.1, the chain [client 1.2.3.4, trusted proxy 10.0.0.1]
resolves to the trusted proxy hop 10.0.0.1 under the source, while the
walk described by the claim skips the trusted hop and returns 1.2.3.4;
the boolean branches return the transport address (trustProxy false)
and the leftmost entry (trustProxy true) as the claim states. -/
theorem c5_proxy_resolver_bug :
    proxyTrustResolver (fun s => if s = "" then none else some s)
        (fun (ip c : String) => decide (ip = c))
        ["1.2.3.4", "10.0.0.1"] (TrustProxyConfig.cidrs ["10.0.0.1"]) = some "10.0.0.1" ∧
    proxyWalkSpec (fun s => if s = "" then none else some s)
        (fun (ip c : String) => decide (ip = c))
        ["10.0.0.1"] (["1.2.3.4", "10.0.0.1"].reverse) = some "1.2.3.4" ∧
    (fun (ip c : String) => decide (ip = c)) "10.0.0.1" "10.0.0.1" = true ∧
    proxyTrustResolver (fun s => if s = "" then none else some s)
        (fun (ip c : String) => decide (ip = c))
        ["1.2.3.4", "10.0.0.1"] (TrustProxyConfig.flag false) = some "10.0.0.1" ∧
    proxyTrustResolver (fun s => if s = "" then none else some s)
        (fun (ip c : String) => decide (ip = c))
        ["1.2.3.4", "10.0.0.1"] (TrustProxyConfig.flag true) = some "1.2.3.4" := by
  refine ⟨by decide, by decide, by decide, by decide, by decide⟩

end ProxyResolver

/-! ## AES wrapper layout

utils.ts, aesEncrypt (lines 91-113) and aesDecrypt (lines 74-89).  The
AES-GCM primitive and SHA-256 of the Web Crypto facade are parameters;
their contract is hypothesized where needed.  The integrity check of
aesDecrypt compares the hex renderings produced by Uint8ArrayToHex. -/

/-- One lowercase hex digit, as produced by Number.prototype.toString(16). -/
def hexDigit (n : Nat) : Char := if n < 10 then Char.ofNat (48 + n) else Char.ofNat (87 + n)

/-- x.toString(16).padStart(2, "0") for a byte. -/
def byteToHex (b : Nat) : List Char := [hexDigit (b / 16), hexDigit (b % 16)]

/-- utils.ts Uint8ArrayToHex. -/
def Uint8ArrayToHex (l : List Nat) : String := ⟨(l.map byteToHex).flatten⟩

/-- JS TypedArray.prototype.slice(a, b). -/
def jsSlice (l : List Nat) (a b : Nat) : List Nat := (l.take b).drop a

/-- utils.ts aesEncrypt: iv(16), then the SHA-256 of the plaintext when
the digest mode is on, then the AES-GCM ciphertext with tag. -/
def aesEncrypt {Key : Type} (gcmEncrypt : Key → List Nat → List Nat → List Nat)
    (sha256 : List Nat → List Nat) (key : Key) (iv : List Nat)
    (data : List Nat) (sha : Bool) : List Nat :=
  iv ++ (if sha then sha256 data else []) ++ gcmEncrypt key iv data

/-- utils.ts aesDecrypt: decrypt with iv = bytes 0-16 and body from
byte 48 (digest mode) or 16; in digest mode compare the hex of the
SHA-256 of the decrypted data with the hex of bytes 16-48 and throw on
mismatch. -/
def aesDecrypt {Key : Type} (gcmDecrypt : Key → List Nat → List Nat → Option (List Nat))
    (sha256 : List Nat → List Nat) (key : Key)
    (encryptedData : List Nat) (sha : Bool) : Option (List Nat) :=
  match gcmDecrypt key (jsSlice encryptedData 0 16)
      (encryptedData.drop (if sha then 48 else 16)) with
  | none => none
  | some decryptedData =>
    if sha then
      if Uint8ArrayToHex (sha256 decryptedData) =
          Uint8ArrayToHex (jsSlice encryptedData 16 48) then some decryptedData
      else none
    else some decryptedData

theorem hexDigit_inj_fin : ∀ (a b : Fin 16), hexDigit a.val = hexDigit b.val → a = b := by
  decide

theorem hexDigit_inj {a b : Nat} (ha : a < 16) (hb : b < 16)
    (h : hexDigit a = hexDigit b) : a = b := by
  have h2 := hexDigit_inj_fin ⟨a, ha⟩ ⟨b, hb⟩ h
  exact congrArg Fin.val h2

theorem hexFlatten_cons (a : Nat) (t : List Nat) :
    ((a :: t).map byteToHex).flatten =
      hexDigit (a / 16) :: hexDigit (a % 16) :: (t.map byteToHex).flatten := rfl

theorem hexFlatten_inj : ∀ (l1 l2 : List Nat), (∀ b ∈ l1, b < 256) → (∀ b ∈ l2, b < 256) →
    (l1.map byteToHex).flatten = (l2.map byteToHex).flatten → l1 = l2 := by
  intro l1
  induction l1 with
  | nil =>
    intro l2 _ _ h
    cases l2 with
    | nil => rfl
    | cons b t =>
      rw [hexFlatten_cons] at h
      cases h
  | cons a t1 ih =>
    intro l2 h1 h2 h
    cases l2 with
    | nil =>
      rw [hexFlatten_cons] at h
      cases h
    | cons b t2 =>
      rw [hexFlatten_cons, hexFlatten_cons] at h
      rw [List.cons.injEq, List.cons.injEq] at h
      obtain ⟨hhi, hlo, hrest⟩ := h
      have ha : a < 256 := h1 a (List.mem_cons_self a t1)
      have hb : b < 256 := h2 b (List.mem_cons_self b t2)
      have heq1 : a / 16 = b / 16 := hexDigit_inj (by omega) (by omega) hhi
      have heq2 : a % 16 = b % 16 := hexDigit_inj (by omega) (by omega) hlo
      have hab : a = b := by omega
      have htail : t1 = t2 := ih t2 (fun x hx => h1 x (List.mem_cons_of_mem a hx))
        (fun x hx => h2 x (List.mem_cons_of_mem b hx)) hrest
      rw [hab, htail]

theorem Uint8ArrayToHex_inj {l1 l2 : List Nat} (h1 : ∀ b ∈ l1, b < 256)
    (h2 : ∀ b ∈ l2, b < 256) (h : Uint8ArrayToHex l1 = Uint8ArrayToHex l2) : l1 = l2 :=
  hexFlatten_inj l1 l2 h1 h2 (congrArg String.data h)

/-- C7: decrypting an encryption with the same key and digest mode
returns the plaintext (given the AES-GCM round trip on the facade and
the sizes the facade guarantees); the encrypted layout is iv, optional
32-byte digest, ciphertext; and a ciphertext whose embedded digest does
not match the decrypted plaintext fails instead of returning data. -/
theorem c7_aes_roundtrip {Key : Type}
    (gcmEncrypt : Key → List Nat → List Nat → List Nat)
    (gcmDecrypt : Key → List Nat → List Nat → Option (List Nat))
    (sha256 : List Nat → List Nat) (key : Key) (iv : List Nat) (p : List Nat)
    (hgcm : gcmDecrypt key iv (gcmEncrypt key iv p) = some p)
    (hiv : iv.length = 16) (hsha : (sha256 p).length = 32) :
    (∀ sha : Bool, aesDecrypt gcmDecrypt sha256 key
        (aesEncrypt gcmEncrypt sha256 key iv p sha) sha = some p) ∧
    aesEncrypt gcmEncrypt sha256 key iv p true = iv ++ sha256 p ++ gcmEncrypt key iv p ∧
    aesEncrypt gcmEncrypt sha256 key iv p false = iv ++ gcmEncrypt key iv p ∧
    (∀ (e plain : List Nat),
       gcmDecrypt key (jsSlice e 0 16) (e.drop 48) = some plain →
       (∀ b ∈ sha256 plain, b < 256) → (∀ b ∈ jsSlice e 16 48, b < 256) →
       sha256 plain ≠ jsSlice e 16 48 →
       aesDecrypt gcmDecrypt sha256 key e true = none) := by
  have hlen48 : (iv ++ sha256 p).length = 48 := by
    rw [List.length_append, hiv, hsha]
  have hdecTrue : ∀ e : List Nat, aesDecrypt gcmDecrypt sha256 key e true =
      match gcmDecrypt key (jsSlice e 0 16) (e.drop 48) with
      | none => none
      | some d => if Uint8ArrayToHex (sha256 d) = Uint8ArrayToHex (jsSlice e 16 48)
                  then some d else none := fun _ => rfl
  have hdecFalse : ∀ e : List Nat, aesDecrypt gcmDecrypt sha256 key e false =
      match gcmDecrypt key (jsSlice e 0 16) (e.drop 16) with
      | none => none
      | some d => some d := fun _ => rfl
  refine ⟨?_, rfl, by simp [aesEncrypt], ?_⟩
  · intro sha
    cases sha with
    | false =>
      show aesDecrypt gcmDecrypt sha256 key (iv ++ [] ++ gcmEncrypt key iv p) false = some p
      have h0 : jsSlice (iv ++ [] ++ gcmEncrypt key iv p) 0 16 = iv := by
        unfold jsSlice
        rw [List.append_assoc, List.drop_zero, ← hiv, List.take_left]
      have hdrop : (iv ++ [] ++ gcmEncrypt key iv p).drop 16 = gcmEncrypt key iv p := by
        rw [List.append_nil, ← hiv, List.drop_left]
      rw [hdecFalse, h0, hdrop, hgcm]
    | true =>
      show aesDecrypt gcmDecrypt sha256 key (iv ++ sha256 p ++ gcmEncrypt key iv p) true
          = some p
      have h0 : jsSlice (iv ++ sha256 p ++ gcmEncrypt key iv p) 0 16 = iv := by
        unfold jsSlice
        rw [List.append_assoc, List.drop_zero, ← hiv, List.take_left]
      have hdrop : (iv ++ sha256 p ++ gcmEncrypt key iv p).drop 48 = gcmEncrypt key iv p := by
        rw [← hlen48, List.drop_left]
      have hmid : jsSlice (iv ++ sha256 p ++ gcmEncrypt key iv p) 16 48 = sha256 p := by
        unfold jsSlice
        rw [← hlen48, List.take_left, ← hiv, List.drop_left]
      rw [hdecTrue, h0, hdrop, hgcm, hmid]
      simp
  · intro e plain hdec hb1 hb2 hne
    have hhexne : Uint8ArrayToHex (sha256 plain) ≠ Uint8ArrayToHex (jsSlice e 16 48) :=
      fun hh => hne (Uint8ArrayToHex_inj hb1 hb2 hh)
    rw [hdecTrue, hdec]
    simp [hhexne]

/-- Witness for C7 with a toy facade satisfying the stated contract. -/
theorem c7_aes_roundtrip_witness :
    aesDecrypt (fun (_ : Unit) _ c => some c) (fun _ => List.replicate 32 0) ()
      (aesEncrypt (fun _ _ d => d) (fun _ => List.replicate 32 0) ()
        (List.replicate 16 1) [5] true) true = some [5] ∧
    aesDecrypt (fun (_ : Unit) _ c => some c) (fun _ => List.replicate 32 0) ()
      (List.replicate 16 1 ++ List.replicate 32 2 ++ [5]) true = none := by
  have h := c7_aes_roundtrip (fun (_ : Unit) _ d => d) (fun _ _ c => some c)
    (fun _ => List.replicate 32 0) () (List.replicate 16 1) [5]
    rfl (by decide) (by decide)
  refine ⟨h.1 true, ?_⟩
  refine h.2.2.2 (List.replicate 16 1 ++ List.replicate 32 2 ++ [5]) [5] (by decide)
    (by decide) (by decide) (by decide)

/-! ## Client pin enforcement in the v2 handshake

client.ts, connectWrapped, onIncomingData for version 2, packet 1
(lines 446-563 of the source): the response mode byte data[2] selects
the encrypted flow (0x01, carrying the delivered root key material),
the unencrypted flow (0x02), or a rejection.  The crypto facade and the
per-connection randomness are parameters. -/

/-- The cryptographic facade and randomness used by the packet-1 handler. -/
structure CryptoFacade where
  sha256 : List Nat → List Nat
  ed25519Verify : List Nat → List Nat → List Nat → Bool
  dilithium5Verify : List Nat → List Nat → List Nat → Bool
  ed25519Sign : List Nat → List Nat → List Nat
  dilithium5Sign : List Nat → List Nat → List Nat
  kyberEncapsulate : List Nat → List Nat × List Nat
  x25519Pub : List Nat → List Nat
  x25519Shared : List Nat → List Nat → List Nat
  gcmEncrypt : List Nat → List Nat → List Nat → List Nat
  ivPQ : List Nat
  ivClassic : List Nat
  classicRandomPrivate : List Nat

/-- One entry of the client pin set (values already as bytes). -/
inductive PinEntry where
  | key (value : List Nat)
  | hash (value : List Nat)
  | noverify
  deriving DecidableEq

/-- client.ts line 262: a noverify entry anywhere in the pin set. -/
def pinsNoVerify (pins : List PinEntry) : Bool :=
  pins.any (fun p => decide (p = PinEntry.noverify))

/-- client.ts lines 263-272: pkValues stays empty when noVerify holds,
and otherwise collects (isHash, value) in order. -/
def pkValues (pins : List PinEntry) : List (Bool × List Nat) :=
  if pinsNoVerify pins then []
  else pins.filterMap (fun p =>
    match p with
    | .key v => some (false, v)
    | .hash v => some (true, v)
    | .noverify => none)

/-- client.ts line 273: every pin is a full key. -/
def isFullKeyOnly (pins : List PinEntry) : Bool := (pkValues pins).all (fun v => !v.1)

/-- Modelled from the spec: exactArray is imported from a utils revision
that is not among the sources; by its uses, pin matching compares the
delivered server key material for exact equality with a pin value, so
it decides equality of the two byte arrays. -/
def exactArray (a b : List Nat) : Bool := decide (a = b)

/-- client.ts lines 468-486: the candidate list kc computed for the
delivered pin material pk of an encrypted-mode response. -/
def pinKCList (C : CryptoFacade) (pins : List PinEntry) (pk : List Nat) :
    List (List Nat × Bool) :=
  let pkh := if isFullKeyOnly pins then pk else C.sha256 pk
  (pkValues pins).map (fun v =>
    if v.1 then (pk, exactArray v.2 pkh)
    else if isFullKeyOnly pins then (v.2, exactArray (C.sha256 v.2) pkh)
    else (v.2, exactArray v.2 pk))

inductive RejectReason where
  | invalidPacket
  | noPublicKeyMatches
  | classicVerifyFailed
  | pqVerifyFailed
  | serverPlainClientEncrypted
  | serverDisallowsPlain
  | versionMismatch
  deriving DecidableEq

/-- Outcome of the packet-1 handler: rejectHandshake (with its
nonRecoverable flag) or a frame passed to wc.send. -/
inductive HandshakeStepResult where
  | rejected (nonRecoverable : Bool) (reason : RejectReason)
  | sent (frame : List Nat)
  deriving DecidableEq

/-- client.ts lines 507-525: the tail of the encrypted branch;
encapsulate to the PQ exchange key, derive the X25519 shared key, sign
the 64-byte challenge with both halves of the session key and send
0x02 0x03 with the doubly-encrypted session material. -/
def sendEncryptedSessionSignature (C : CryptoFacade) (sessionID sessionKey : List Nat)
    (exchangeClassic exchangePQ random : List Nat) : HandshakeStepResult :=
  let pqData := C.kyberEncapsulate exchangePQ
  let classicRandomPublic := C.x25519Pub C.classicRandomPrivate
  let classicKey := C.x25519Shared C.classicRandomPrivate exchangeClassic
  let sessionSignatureClassic := C.ed25519Sign random (jsSlice sessionKey 0 32)
  let sessionSignaturePQ := C.dilithium5Sign random (sessionKey.drop 64)
  HandshakeStepResult.sent ([2, 3] ++ classicRandomPublic ++ pqData.1 ++
    aesEncrypt C.gcmEncrypt C.sha256 classicKey C.ivClassic
      (aesEncrypt C.gcmEncrypt C.sha256 pqData.2 C.ivPQ
        (sessionID ++ sessionSignatureClassic ++ sessionSignaturePQ) true) true)

/-- The packet-1 handler of the v2 client flow, after the onIncomingData
preamble has already required data[0] = 0x02. -/
def handleV2ServerHello (C : CryptoFacade) (pins : List PinEntry)
    (disableEncryption : Bool) (sessionID sessionKey : List Nat)
    (data : List Nat) : HandshakeStepResult :=
  if byteAt data 1 ≠ 2 then .rejected false .invalidPacket
  else if byteAt data 2 = 1 then
    let exchangeClassic := jsSlice data 3 35
    let exchangePQ := jsSlice data 35 1603
    let exchangeFull := jsSlice data 3 1603
    let random := jsSlice data 6262 6326
    if pinsNoVerify pins then
      sendEncryptedSessionSignature C sessionID sessionKey exchangeClassic exchangePQ random
    else
      let signatureClassic := jsSlice data 1603 1667
      let signaturePQ := jsSlice data 1667 6262
      let pk := data.drop 6326
      match (pinKCList C pins pk).find? (fun x => x.2) with
      | none => .rejected false .noPublicKeyMatches
      | some k =>
        if ¬ C.ed25519Verify signatureClassic exchangeFull (jsSlice k.1 0 32) then
          .rejected true .classicVerifyFailed
        else if ¬ C.dilithium5Verify signaturePQ exchangeFull (k.1.drop 32) then
          .rejected true .pqVerifyFailed
        else
          sendEncryptedSessionSignature C sessionID sessionKey exchangeClassic exchangePQ random
  else if byteAt data 2 = 2 then
    if ¬ disableEncryption then .rejected false .serverPlainClientEncrypted
    else
      let random := jsSlice data 3 67
      .sent ([2, 3] ++ sessionID ++ C.ed25519Sign random (jsSlice sessionKey 0 32) ++
        C.dilithium5Sign random (sessionKey.drop 64))
  else if byteAt data 2 = 3 then .rejected false .serverDisallowsPlain
  else if byteAt data 2 = 4 then .rejected false .versionMismatch
  else .rejected false .invalidPacket

/-- A computable facade for concrete evaluation. -/
def toyFacade : CryptoFacade where
  sha256 := fun _ => List.replicate 32 0
  ed25519Verify := fun _ _ _ => true
  dilithium5Verify := fun _ _ _ => true
  ed25519Sign := fun _ _ => [7]
  dilithium5Sign := fun _ _ => [8]
  kyberEncapsulate := fun _ => ([3], [4])
  x25519Pub := fun _ => [5]
  x25519Shared := fun _ _ => [6]
  gcmEncrypt := fun _ _ p => p
  ivPQ := List.replicate 16 0
  ivClassic := List.replicate 16 0
  classicRandomPrivate := [9]

/-- Counterexample to C9 as stated: a client whose pin set is a single
non-matching hash pin (no noverify) but with disableEncryption set,
receiving the unencrypted-mode server response 0x02 0x02 0x02 followed
by the challenge, transmits the 0x02 0x03 frame carrying its session
public key and both session signatures instead of aborting: no pin
entry was matched before the session signature left the client. -/
theorem c9_unencrypted_counterexample :
    pinsNoVerify [PinEntry.hash [170]] = false ∧
    handleV2ServerHello toyFacade [PinEntry.hash [170]] true [9, 9] (List.replicate 96 1)
        ([2, 2, 2] ++ List.replicate 64 5) =
      HandshakeStepResult.sent ([2, 3] ++ [9, 9] ++ [7] ++ [8]) := by
  exact ⟨by decide, by decide⟩

/-- C9 amended: in the encrypted v2 flow (server response mode byte
0x01, the only response that delivers root key material), a client
without a noverify pin whose pin entries all fail to match the
delivered material rejects with no-public-key-matches before any send,
and a 0x02 0x03 frame is only sent when some pin entry matched; in the
mutually agreed unencrypted flow the session signature is sent without
any pin check. -/
theorem c9_pin_enforcement (C : CryptoFacade) (pins : List PinEntry)
    (de : Bool) (sessionID sessionKey data : List Nat)
    (h2 : byteAt data 1 = 2) (hmode : byteAt data 2 = 1)
    (hnv : pinsNoVerify pins = false) :
    ((pinKCList C pins (data.drop 6326)).all (fun x => !x.2) = true →
       handleV2ServerHello C pins de sessionID sessionKey data =
         HandshakeStepResult.rejected false RejectReason.noPublicKeyMatches) ∧
    (∀ frame : List Nat,
       handleV2ServerHello C pins de sessionID sessionKey data =
         HandshakeStepResult.sent frame →
       ∃ k ∈ pinKCList C pins (data.drop 6326), k.2 = true) := by
  constructor
  · intro hall
    have hfind : (pinKCList C pins (data.drop 6326)).find? (fun x => x.2) = none := by
      rw [List.find?_eq_none]
      intro x hx
      have hx2 := (List.all_eq_true.mp hall) x hx
      simp at hx2 ⊢
      exact hx2
    simp [handleV2ServerHello, h2, hmode, hnv, hfind]
  · intro frame hsent
    by_cases hfind : (pinKCList C pins (data.drop 6326)).find? (fun x => x.2) = none
    · simp [handleV2ServerHello, h2, hmode, hnv, hfind] at hsent
    · obtain ⟨k, hk⟩ := Option.ne_none_iff_exists'.mp hfind
      exact ⟨k, List.mem_of_find?_eq_some hk, List.find?_some hk⟩

/-- Witness for C9 amended: a non-matching hash pin against an
encrypted-mode response is rejected before anything is sent. -/
theorem c9_pin_enforcement_witness :
    handleV2ServerHello toyFacade [PinEntry.hash [170]] false [9] (List.replicate 96 1)
        [2, 2, 1] =
      HandshakeStepResult.rejected false RejectReason.noPublicKeyMatches :=
  (c9_pin_enforcement toyFacade [PinEntry.hash [170]] false [9] (List.replicate 96 1)
    [2, 2, 1] (by decide) (by decide) (by decide)).1 (by decide)

end ProtoV2d
